import Mathlib

/-!
Verification of the `SuspenseContext` pending-task tracker
(`src/leptos_reactive/src/suspense.rs`).

The tracker owns two reactive cells — a pending count (`usize`, modelled as
`Nat`) and a set of pending resource ids (`BTreeSet<ResourceId>`, modelled as
`Finset Nat`).  `increment`/`decrement` enqueue a single microtask closure
that performs both cell mutations; draining the queue applies closures in
FIFO order.  Equality and hashing of a `SuspenseContext` are by the identity
(`SignalId`) of its count cell.
-/

namespace Leptos

/-- Resource identifier: an opaque, totally ordered token minted by the
external resource system.  Modelled as a natural number. -/
abbrev ResourceId := Nat

/-- The committed values of the tracker's two cells: the pending count
(`pending_resources : usize`) and the pending id set
(`pending_resource_ids : BTreeSet<ResourceId>`). -/
structure SuspenseState where
  pending_resources : Nat
  pending_resource_ids : Finset ResourceId
deriving DecidableEq

/-- The state produced by `SuspenseContext::new`: count `0`, empty id set. -/
def initState : SuspenseState := ⟨0, ∅⟩

/-- One primitive cell write performed inside a queued microtask closure.
`incCount` and `decCountClamped` are the two `setter.update` bodies of
`increment` and `decrement`; `insertId` and `eraseId` are the two
`id_setter.update` bodies. -/
inductive SubMut
  | incCount
  | decCountClamped
  | insertId (id : ResourceId)
  | eraseId (id : ResourceId)
deriving DecidableEq

/-- Applies one primitive cell write, exactly as the closure bodies in the
source do: `*n += 1`; `if *n > 0 { *n -= 1 }`; `ids.insert(id)`;
`ids.remove(&id)`. -/
def applySubMut (s : SuspenseState) : SubMut → SuspenseState
  | .incCount =>
      { s with pending_resources := s.pending_resources + 1 }
  | .decCountClamped =>
      { s with pending_resources :=
          if s.pending_resources > 0 then s.pending_resources - 1
          else s.pending_resources }
  | .insertId id =>
      { s with pending_resource_ids := insert id s.pending_resource_ids }
  | .eraseId id =>
      { s with pending_resource_ids := s.pending_resource_ids.erase id }

/-- A call made by an external producer on the tracker. -/
inductive Call
  | increment (id : ResourceId)
  | decrement (id : ResourceId)
deriving DecidableEq

/-- The single closure that `increment`/`decrement` pass to
`queue_microtask`: both the count write and the id-set write, in source
order, inside one closure. -/
def callClosure : Call → List SubMut
  | .increment id => [.incCount, .insertId id]
  | .decrement id => [.decCountClamped, .eraseId id]

/-- Runs one queued closure: its sub-mutations apply in order. -/
def runClosure (s : SuspenseState) (c : List SubMut) : SuspenseState :=
  c.foldl applySubMut s

/-- Modelled from the spec: the deferred-task queue (`queue_microtask`) is
external to the sources given here; per the spec it runs each enqueued
closure exactly once, after the current synchronous turn, in FIFO order.
Draining a queue of closures therefore folds `runClosure` left-to-right. -/
def runQueue (s : SuspenseState) (q : List (List SubMut)) : SuspenseState :=
  q.foldl runClosure s

/-- The net effect of one call once its closure has run. -/
def applyCall (s : SuspenseState) (c : Call) : SuspenseState :=
  runClosure s (callClosure c)

/-- The net effect of a sequence of calls, applied in call order. -/
def applyCalls (s : SuspenseState) (cs : List Call) : SuspenseState :=
  cs.foldl applyCall s

/-- A single-tracker runtime: the committed cell values plus the pending
microtask queue of not-yet-run closures. -/
structure Runtime where
  state : SuspenseState
  queue : List (List SubMut)
deriving DecidableEq

/-- The runtime right after construction: initial state, empty queue. -/
def initRuntime : Runtime := ⟨initState, []⟩

/-- Modelled from the spec: `queue_microtask` appends the closure to the
FIFO deferred-task queue. -/
def queue_microtask (rt : Runtime) (c : List SubMut) : Runtime :=
  { rt with queue := rt.queue ++ [c] }

/-- `SuspenseContext::increment`: enqueues one closure holding both the
count increment and the id insertion. -/
def increment (rt : Runtime) (id : ResourceId) : Runtime :=
  queue_microtask rt (callClosure (.increment id))

/-- `SuspenseContext::decrement`: enqueues one closure holding both the
clamped count decrement and the id removal. -/
def decrement (rt : Runtime) (id : ResourceId) : Runtime :=
  queue_microtask rt (callClosure (.decrement id))

/-- Issues one call on the runtime (dispatch to `increment`/`decrement`). -/
def issueCall (rt : Runtime) : Call → Runtime
  | .increment id => increment rt id
  | .decrement id => decrement rt id

/-- Issues a list of calls within one synchronous turn, in order. -/
def issueAll (rt : Runtime) (cs : List Call) : Runtime :=
  cs.foldl issueCall rt

/-- Modelled from the spec: draining the deferred-task queue runs every
queued closure in FIFO order and leaves the queue empty. -/
def drain (rt : Runtime) : Runtime :=
  ⟨runQueue rt.state rt.queue, []⟩

/-- Number of `increment` calls in a sequence. -/
def incTotal : List Call → Nat
  | [] => 0
  | .increment _ :: rest => incTotal rest + 1
  | .decrement _ :: rest => incTotal rest

/-- Number of `decrement` calls in a sequence. -/
def decTotal : List Call → Nat
  | [] => 0
  | .increment _ :: rest => decTotal rest
  | .decrement _ :: rest => decTotal rest + 1

/-- Decides whether, starting from count `n`, no decrement in the sequence
ever fires while the count is `0` (i.e. the defensive clamp in
`decrement` never actually engages). -/
def noClampFrom (n : Nat) : List Call → Bool
  | [] => true
  | .increment _ :: rest => noClampFrom (n + 1) rest
  | .decrement _ :: rest => decide (0 < n) && noClampFrom (n - 1) rest

/-- Tests whether a sub-mutation writes the count cell. -/
def isCountWrite : SubMut → Bool
  | .incCount => true
  | .decCountClamped => true
  | _ => false

/-- Tests whether a sub-mutation writes the id-set cell. -/
def isIdsWrite : SubMut → Bool
  | .insertId _ => true
  | .eraseId _ => true
  | _ => false

/-- Modelled from the spec: the count cell as seen by `ready`.  The reactive
signal primitive is external to the sources given here; a read through
`try_with` succeeds with the committed value unless the owning scope has
been disposed, in which case it yields nothing. -/
structure CountCell where
  value : Nat
  disposed : Bool
deriving DecidableEq

/-- Modelled from the spec: `ReadSignal::try_with` applies `f` to the
current value and returns `none` instead of failing when the cell cannot
be read (owning scope disposed). -/
def try_with (c : CountCell) (f : Nat → Bool) : Option Bool :=
  if c.disposed then none else some (f c.value)

/-- `SuspenseContext::ready`: `self.pending_resources.try_with(|n| *n == 0)
.unwrap_or(false)`. -/
def ready (c : CountCell) : Bool :=
  (try_with c (fun n => n == 0)).getD false

/-- Modelled from the spec: a signal handle carries the stable `SignalId`
of the cell it points at; `ReadSignal` and `WriteSignal` returned by one
`create_signal` call share the same id. -/
structure SignalHandle where
  id : Nat
deriving DecidableEq

/-- The `SuspenseContext` struct itself: four copyable signal handles (the
derive of `Copy`/`Clone` makes a copy an identical quadruple of handles). -/
structure SuspenseContext where
  pending_resources : SignalHandle
  set_pending_resources : SignalHandle
  pending_resource_ids : SignalHandle
  set_pending_resource_ids : SignalHandle
deriving DecidableEq

/-- The `PartialEq` impl: compare only `pending_resources.id`. -/
def ctxEq (a b : SuspenseContext) : Bool :=
  a.pending_resources.id == b.pending_resources.id

/-- The `Hash` impl feeds exactly `pending_resources.id` to the hasher, so
the data hashed is characterised by that id alone. -/
def ctxHashInput (a : SuspenseContext) : Nat :=
  a.pending_resources.id

/-- Modelled from the spec: the ownership scope's signal arena.  It stores
the committed value of every allocated cell, keyed by `SignalId`, in two
typed stores (count-valued and id-set-valued cells), and mints fresh ids
from a counter. -/
structure Scope where
  countCells : List (Nat × Nat)
  idsCells : List (Nat × Finset ResourceId)
  nextSignal : Nat
deriving DecidableEq

/-- Looks a cell up by id in a typed store. -/
def lookupCell {α : Type} : List (Nat × α) → Nat → Option α
  | [], _ => none
  | p :: rest, k => if p.1 = k then some p.2 else lookupCell rest k

/-- Applies an in-place update to the cell with the given id, as
`WriteSignal::update` does; other cells are untouched. -/
def updateCell {α : Type} : List (Nat × α) → Nat → (α → α) → List (Nat × α)
  | [], _, _ => []
  | p :: rest, k, f =>
      (if p.1 = k then (p.1, f p.2) else p) :: updateCell rest k f

/-- Modelled from the spec: `create_signal(cx, init)` for a count-valued
cell allocates one fresh cell holding `init` and returns the read and
write handles, both carrying the new cell's id. -/
def create_signal_count (cx : Scope) (init : Nat) :
    (SignalHandle × SignalHandle) × Scope :=
  ((⟨cx.nextSignal⟩, ⟨cx.nextSignal⟩),
   { cx with
      countCells := cx.countCells ++ [(cx.nextSignal, init)]
      nextSignal := cx.nextSignal + 1 })

/-- Modelled from the spec: `create_signal(cx, init)` for an id-set-valued
cell, as above. -/
def create_signal_ids (cx : Scope) (init : Finset ResourceId) :
    (SignalHandle × SignalHandle) × Scope :=
  ((⟨cx.nextSignal⟩, ⟨cx.nextSignal⟩),
   { cx with
      idsCells := cx.idsCells ++ [(cx.nextSignal, init)]
      nextSignal := cx.nextSignal + 1 })

/-- `SuspenseContext::new`: allocates the count cell at `0`, then the
id-set cell at `Default::default()` (the empty set), and wraps the four
handles. -/
def SuspenseContext.new (cx : Scope) : SuspenseContext × Scope :=
  let r1 := create_signal_count cx 0
  let r2 := create_signal_ids r1.2 ∅
  (⟨r1.1.1, r1.1.2, r2.1.1, r2.1.2⟩, r2.2)

/-- Reads the committed count through a tracker's `pending_resources`
read handle. -/
def readCount (cx : Scope) (t : SuspenseContext) : Option Nat :=
  lookupCell cx.countCells t.pending_resources.id

/-- Reads the committed id set through a tracker's `pending_resource_ids`
read handle. -/
def readIds (cx : Scope) (t : SuspenseContext) : Option (Finset ResourceId) :=
  lookupCell cx.idsCells t.pending_resource_ids.id

/-- The effect on the scope's stores of the closure queued by
`increment(id)` through tracker `t`, once it runs: `setter.update(|n| *n += 1)`
on the count cell and `id_setter.update(|ids| ids.insert(id))` on the
id-set cell. -/
def incrementApplied (cx : Scope) (t : SuspenseContext) (id : ResourceId) :
    Scope :=
  { cx with
      countCells := updateCell cx.countCells t.set_pending_resources.id
        (fun n => n + 1)
      idsCells := updateCell cx.idsCells t.set_pending_resource_ids.id
        (fun ids => insert id ids) }

/-- The effect on the scope's stores of the closure queued by
`decrement(id)` through tracker `t`, once it runs. -/
def decrementApplied (cx : Scope) (t : SuspenseContext) (id : ResourceId) :
    Scope :=
  { cx with
      countCells := updateCell cx.countCells t.set_pending_resources.id
        (fun n => if n > 0 then n - 1 else n)
      idsCells := updateCell cx.idsCells t.set_pending_resource_ids.id
        (fun ids => ids.erase id) }

/-- A scope is well formed when every allocated cell's id is below the
fresh-id counter (as the mint-then-bump allocator guarantees). -/
def Scope.WF (cx : Scope) : Prop :=
  (∀ p ∈ cx.countCells, p.1 < cx.nextSignal) ∧
  (∀ p ∈ cx.idsCells, p.1 < cx.nextSignal)

/-- A tracker handle is well formed when its read and write handles point
at the same cells, as the handles returned by `create_signal` do. -/
def SuspenseContext.WF (t : SuspenseContext) : Prop :=
  t.pending_resources.id = t.set_pending_resources.id ∧
  t.pending_resource_ids.id = t.set_pending_resource_ids.id

/-- The count written by an `increment` closure is the old count plus one. -/
lemma applyCall_inc_count (s : SuspenseState) (id : ResourceId) :
    (applyCall s (.increment id)).pending_resources = s.pending_resources + 1 :=
  rfl

/-- The ids written by an `increment` closure are the old ids plus `id`. -/
lemma applyCall_inc_ids (s : SuspenseState) (id : ResourceId) :
    (applyCall s (.increment id)).pending_resource_ids =
      insert id s.pending_resource_ids :=
  rfl

/-- The count written by a `decrement` closure is the old count minus one,
clamped at zero. -/
lemma applyCall_dec_count (s : SuspenseState) (id : ResourceId) :
    (applyCall s (.decrement id)).pending_resources =
      if s.pending_resources > 0 then s.pending_resources - 1
      else s.pending_resources :=
  rfl

/-- The ids written by a `decrement` closure are the old ids with `id`
removed. -/
lemma applyCall_dec_ids (s : SuspenseState) (id : ResourceId) :
    (applyCall s (.decrement id)).pending_resource_ids =
      s.pending_resource_ids.erase id :=
  rfl

/-- Running a queue consisting of each call's closure is the same as
applying the calls directly, in order. -/
lemma runQueue_map_callClosure (l : List Call) (s : SuspenseState) :
    runQueue s (l.map callClosure) = applyCalls s l := by
  induction l generalizing s with
  | nil => rfl
  | cons c t ih => exact ih (applyCall s c)

/-- Issuing calls in one turn leaves the committed state alone and appends
each call's closure, in call order, to the queue. -/
lemma issueAll_spec (cs : List Call) (rt : Runtime) :
    issueAll rt cs = ⟨rt.state, rt.queue ++ cs.map callClosure⟩ := by
  induction cs generalizing rt with
  | nil => simp [issueAll]
  | cons c t ih =>
      have hc : issueCall rt c = ⟨rt.state, rt.queue ++ [callClosure c]⟩ := by
        cases c <;> rfl
      calc issueAll rt (c :: t) = issueAll (issueCall rt c) t := rfl
        _ = ⟨rt.state, rt.queue ++ (c :: t).map callClosure⟩ := by
            rw [ih, hc]; simp

/-- The final count is bounded below by the old count plus the net number
of increments, whatever the clamp does. -/
lemma count_lower_bound (cs : List Call) (s : SuspenseState) :
    (s.pending_resources : ℤ) + incTotal cs - decTotal cs ≤
      ((applyCalls s cs).pending_resources : ℤ) := by
  induction cs generalizing s with
  | nil => simp [incTotal, decTotal, applyCalls]
  | cons c t ih =>
      cases c with
      | increment id =>
          have h := ih (applyCall s (.increment id))
          rw [applyCall_inc_count] at h
          have hs : applyCalls s (Call.increment id :: t) =
              applyCalls (applyCall s (.increment id)) t := rfl
          rw [hs]
          simp only [incTotal, decTotal]
          push_cast at h ⊢
          omega
      | decrement id =>
          have h := ih (applyCall s (.decrement id))
          rw [applyCall_dec_count] at h
          have hs : applyCalls s (Call.decrement id :: t) =
              applyCalls (applyCall s (.decrement id)) t := rfl
          rw [hs]
          simp only [incTotal, decTotal]
          by_cases hn : s.pending_resources > 0 <;>
            simp only [hn, if_true, if_false, reduceIte] at h <;>
            push_cast at h ⊢ <;> omega

/-- When the clamp never engages, the final count is exactly the old count
plus the net number of increments. -/
lemma count_eq_of_noClamp (cs : List Call) (s : SuspenseState)
    (h : noClampFrom s.pending_resources cs = true) :
    ((applyCalls s cs).pending_resources : ℤ) =
      (s.pending_resources : ℤ) + incTotal cs - decTotal cs := by
  induction cs generalizing s with
  | nil => simp [incTotal, decTotal, applyCalls]
  | cons c t ih =>
      cases c with
      | increment id =>
          have hrec : noClampFrom
              ((applyCall s (.increment id)).pending_resources) t = true := by
            rw [applyCall_inc_count]; exact h
          have heq := ih (applyCall s (.increment id)) hrec
          rw [applyCall_inc_count] at heq
          have hs : applyCalls s (Call.increment id :: t) =
              applyCalls (applyCall s (.increment id)) t := rfl
          rw [hs, heq]
          simp only [incTotal, decTotal]
          push_cast
          ring
      | decrement id =>
          have hsplit : (decide (0 < s.pending_resources) &&
              noClampFrom (s.pending_resources - 1) t) = true := h
          rw [Bool.and_eq_true, decide_eq_true_eq] at hsplit
          obtain ⟨hpos, hrest⟩ := hsplit
          have hcnt : (applyCall s (.decrement id)).pending_resources =
              s.pending_resources - 1 := by
            rw [applyCall_dec_count, if_pos hpos]
          have heq := ih (applyCall s (.decrement id)) (by rw [hcnt]; exact hrest)
          rw [hcnt] at heq
          have hs : applyCalls s (Call.decrement id :: t) =
              applyCalls (applyCall s (.decrement id)) t := rfl
          rw [hs, heq]
          simp only [incTotal, decTotal]
          push_cast
          omega

/-- Appending a fresh-keyed cell to a store makes that key readable. -/
lemma lookupCell_append_fresh {α : Type} (l : List (Nat × α)) (k : Nat)
    (v : α) (h : ∀ p ∈ l, p.1 ≠ k) : lookupCell (l ++ [(k, v)]) k = some v := by
  induction l with
  | nil => simp [lookupCell]
  | cons p rest ih =>
      have hp : p.1 ≠ k := h p (List.mem_cons_self p rest)
      have hrest : ∀ q ∈ rest, q.1 ≠ k :=
        fun q hq => h q (List.mem_cons_of_mem p hq)
      simpa [lookupCell, hp] using ih hrest

/-- Updating a cell in place changes exactly that cell's committed value. -/
lemma lookupCell_updateCell_self {α : Type} (l : List (Nat × α)) (k : Nat)
    (f : α → α) : lookupCell (updateCell l k f) k = (lookupCell l k).map f := by
  induction l with
  | nil => rfl
  | cons p rest ih =>
      by_cases hp : p.1 = k <;> simp [lookupCell, updateCell, hp, ih]

/-- C1 counterexample: for the call sequence `[decrement 0, increment 0]`
drained from the initial state, the resulting count is `1`, not
`max 0 (1 - 1) = 0`: the clamp fires on the early decrement, so the final
count does NOT equal `max 0 (increments - decrements)` for every
sequence. -/
theorem net_increments_counterexample :
    ¬ (((applyCalls initState [Call.decrement 0, Call.increment 0]).pending_resources : ℤ) =
        max 0 ((incTotal [Call.decrement 0, Call.increment 0] : ℤ) -
          (decTotal [Call.decrement 0, Call.increment 0] : ℤ))) := by
  decide

/-- C1 (amended): after any finite call sequence is drained from the
initial state, the count is at least `max 0 (increments - decrements)`,
and `pending_count() = 0` implies no net-outstanding increments remain;
when no decrement ever fires while the count is `0`, the count equals the
net number of increments exactly, and is `0` iff increments and
decrements balance. -/
theorem net_increments_amended (cs : List Call) :
    max 0 ((incTotal cs : ℤ) - (decTotal cs : ℤ)) ≤
      ((applyCalls initState cs).pending_resources : ℤ) ∧
    ((applyCalls initState cs).pending_resources = 0 →
      incTotal cs ≤ decTotal cs) ∧
    (noClampFrom 0 cs = true →
      ((applyCalls initState cs).pending_resources : ℤ) =
        (incTotal cs : ℤ) - (decTotal cs : ℤ) ∧
      ((applyCalls initState cs).pending_resources = 0 ↔
        incTotal cs = decTotal cs)) := by
  have hlb := count_lower_bound cs initState
  have h0 : (initState.pending_resources : ℤ) = 0 := rfl
  rw [h0] at hlb
  refine ⟨?_, ?_, ?_⟩
  · exact max_le (Int.ofNat_nonneg _) (by omega)
  · intro hz
    rw [hz] at hlb
    push_cast at hlb
    omega
  · intro hnc
    have heq := count_eq_of_noClamp cs initState hnc
    rw [h0] at heq
    refine ⟨by omega, ?_⟩
    constructor
    · intro hz; rw [hz] at heq; push_cast at heq; omega
    · intro hb
      have : ((applyCalls initState cs).pending_resources : ℤ) = 0 := by
        rw [heq, hb]; ring
      exact_mod_cast this

/-- C1 witness: on `[increment 0, increment 1, decrement 0]` the clamp
never fires and the drained count is the net number of increments. -/
theorem net_increments_witness :
    ((applyCalls initState
        [Call.increment 0, Call.increment 1, Call.decrement 0]).pending_resources : ℤ) =
      (incTotal [Call.increment 0, Call.increment 1, Call.decrement 0] : ℤ) -
        (decTotal [Call.increment 0, Call.increment 1, Call.decrement 0] : ℤ) :=
  ((net_increments_amended
      [Call.increment 0, Call.increment 1, Call.decrement 0]).2.2 (by decide)).1

/-- C2: enqueueing `increment(id)` and draining always raises the count by
exactly one — also when `id` is already a member — and in that case the
idempotent `BTreeSet::insert` leaves the id set unchanged, so count and
set size may diverge. -/
theorem increment_event_counter (s : SuspenseState) (id : ResourceId) :
    (drain (increment ⟨s, []⟩ id)).state.pending_resources =
      s.pending_resources + 1 ∧
    (id ∈ s.pending_resource_ids →
      (drain (increment ⟨s, []⟩ id)).state.pending_resource_ids =
        s.pending_resource_ids) :=
  ⟨rfl, fun h => Finset.insert_eq_self.mpr h⟩

/-- C2 witness: from count `3` and id set `{7}`, incrementing the already
present id `7` yields count `4` and the unchanged set `{7}`. -/
theorem increment_event_counter_witness :
    (drain (increment ⟨⟨3, {7}⟩, []⟩ 7)).state.pending_resources = 4 ∧
    (drain (increment ⟨⟨3, {7}⟩, []⟩ 7)).state.pending_resource_ids = {7} :=
  ⟨(increment_event_counter ⟨3, {7}⟩ 7).1,
   (increment_event_counter ⟨3, {7}⟩ 7).2 (by decide)⟩

/-- C3: enqueueing `decrement(id)` and draining subtracts one from a
positive count, leaves a zero count at zero (never an error, and `Nat`
rules out a negative value by construction), and removes `id` from the id
set, where removing an absent member leaves the set unchanged. -/
theorem decrement_clamped_removes (s : SuspenseState) (id : ResourceId) :
    (0 < s.pending_resources →
      (drain (decrement ⟨s, []⟩ id)).state.pending_resources =
        s.pending_resources - 1) ∧
    (s.pending_resources = 0 →
      (drain (decrement ⟨s, []⟩ id)).state.pending_resources = 0) ∧
    (drain (decrement ⟨s, []⟩ id)).state.pending_resource_ids =
      s.pending_resource_ids.erase id ∧
    (id ∉ s.pending_resource_ids →
      (drain (decrement ⟨s, []⟩ id)).state.pending_resource_ids =
        s.pending_resource_ids) := by
  refine ⟨?_, ?_, rfl, ?_⟩
  · intro h
    show (if s.pending_resources > 0 then s.pending_resources - 1
        else s.pending_resources) = s.pending_resources - 1
    rw [if_pos h]
  · intro h
    show (if s.pending_resources > 0 then s.pending_resources - 1
        else s.pending_resources) = 0
    rw [h]
    decide
  · intro h
    exact Finset.erase_eq_of_not_mem h

/-- C3 witness: from count `0` and id set `{4}`, decrementing the absent
id `9` leaves both the count at `0` and the set at `{4}`. -/
theorem decrement_clamped_removes_witness :
    (drain (decrement ⟨⟨0, {4}⟩, []⟩ 9)).state.pending_resources = 0 ∧
    (drain (decrement ⟨⟨0, {4}⟩, []⟩ 9)).state.pending_resource_ids = {4} :=
  ⟨(decrement_clamped_removes ⟨0, {4}⟩ 9).2.1 rfl,
   (decrement_clamped_removes ⟨0, {4}⟩ 9).2.2.2 (by decide)⟩

/-- C4: every call's closure contains exactly one count write and exactly
one id-set write (both mutations live in one queued closure), and the
state visible between closure executions — after any whole number `k` of
queued closures has run — always equals the initial state with a whole
prefix of the calls applied: no observation point reflects only half of a
call. -/
theorem batch_atomicity (s : SuspenseState) (calls : List Call) (k : Nat) :
    (∀ c : Call, ((callClosure c).filter isCountWrite).length = 1 ∧
        ((callClosure c).filter isIdsWrite).length = 1) ∧
    runQueue s ((calls.map callClosure).take k) = applyCalls s (calls.take k) := by
  refine ⟨fun c => by cases c <;> exact ⟨rfl, rfl⟩, ?_⟩
  rw [← List.map_take]
  exact runQueue_map_callClosure (calls.take k) s

/-- C5: calls issued within one turn are enqueued FIFO and applied in call
order on drain; concretely, `increment A; increment B; decrement A` from
the initial state drains to count `1` and id set `{B}` for any distinct
`A`, `B`. -/
theorem call_order_drain (A B : ResourceId) (h : A ≠ B) :
    (∀ (rt : Runtime) (cs : List Call),
        (drain (issueAll rt cs)).state = applyCalls (drain rt).state cs) ∧
    (drain (issueAll initRuntime
        [Call.increment A, Call.increment B, Call.decrement A])).state.pending_resources = 1 ∧
    (drain (issueAll initRuntime
        [Call.increment A, Call.increment B, Call.decrement A])).state.pending_resource_ids = {B} := by
  have horder : ∀ (rt : Runtime) (cs : List Call),
      (drain (issueAll rt cs)).state = applyCalls (drain rt).state cs := by
    intro rt cs
    rw [issueAll_spec]
    show runQueue rt.state (rt.queue ++ cs.map callClosure) = _
    rw [runQueue, List.foldl_append]
    exact runQueue_map_callClosure cs (runQueue rt.state rt.queue)
  have hstate : (drain (issueAll initRuntime
      [Call.increment A, Call.increment B, Call.decrement A])).state =
      ⟨1, (insert B (insert A (∅ : Finset ResourceId))).erase A⟩ := rfl
  refine ⟨horder, ?_, ?_⟩
  · rw [hstate]
  · rw [hstate]
    show (insert B (insert A (∅ : Finset ResourceId))).erase A = {B}
    ext x
    simp only [Finset.mem_erase, Finset.mem_insert, Finset.mem_singleton,
      Finset.not_mem_empty, or_false]
    constructor
    · rintro ⟨hxA, hx | hx⟩
      · exact hx
      · exact (hxA hx).elim
    · rintro rfl
      exact ⟨fun hBA => h hBA.symm, Or.inl rfl⟩

/-- C5 witness: with `A = 0`, `B = 1`, the drained state has count `1` and
id set `{1}`. -/
theorem call_order_drain_witness :
    (drain (issueAll initRuntime
        [Call.increment 0, Call.increment 1, Call.decrement 0])).state.pending_resources = 1 ∧
    (drain (issueAll initRuntime
        [Call.increment 0, Call.increment 1, Call.decrement 0])).state.pending_resource_ids = {1} :=
  ⟨(call_order_drain 0 1 (by decide)).2.1, (call_order_drain 0 1 (by decide)).2.2⟩

/-- C9: the clamp and the removal are independent — from a state with
count `0` and `id` in the set, a drained `decrement(id)` keeps the count
at `0` and removes `id`; and from the initial state the sequence
`increment 0; increment 0; decrement 1; decrement 2` drains to count `0`
(so `ready` on a live count cell holding it is `true`) with the non-empty
id set `{0}`. -/
theorem clamp_and_removal_independent :
    (∀ (s : SuspenseState) (id : ResourceId),
        s.pending_resources = 0 → id ∈ s.pending_resource_ids →
        (drain (decrement ⟨s, []⟩ id)).state.pending_resources = 0 ∧
        id ∉ (drain (decrement ⟨s, []⟩ id)).state.pending_resource_ids) ∧
    ((applyCalls initState [Call.increment 0, Call.increment 0,
        Call.decrement 1, Call.decrement 2]).pending_resources = 0 ∧
      (applyCalls initState [Call.increment 0, Call.increment 0,
        Call.decrement 1, Call.decrement 2]).pending_resource_ids ≠ ∅ ∧
      ready ⟨(applyCalls initState [Call.increment 0, Call.increment 0,
        Call.decrement 1, Call.decrement 2]).pending_resources, false⟩ = true) := by
  constructor
  · intro s id h0 _
    constructor
    · show (if s.pending_resources > 0 then s.pending_resources - 1
          else s.pending_resources) = 0
      rw [h0]
      decide
    · exact Finset.not_mem_erase id s.pending_resource_ids
  · exact ⟨by decide, by decide, by decide⟩

/-- C9 witness: from count `0` and id set `{5}`, a drained `decrement 5`
keeps the count at `0` and drops `5` from the set. -/
theorem clamp_and_removal_independent_witness :
    (drain (decrement ⟨⟨0, {5}⟩, []⟩ 5)).state.pending_resources = 0 ∧
    5 ∉ (drain (decrement ⟨⟨0, {5}⟩, []⟩ 5)).state.pending_resource_ids :=
  clamp_and_removal_independent.1 ⟨0, {5}⟩ 5 rfl (by decide)

/-- C6: `ready` is `true` exactly when the count cell is readable and its
committed value is `0`; on an unreadable (disposed) cell it degrades to
`false` — by construction it is total, so it cannot fail or panic. -/
theorem ready_iff_zero (c : CountCell) :
    (ready c = true ↔ (c.disposed = false ∧ c.value = 0)) ∧
    (c.disposed = true → ready c = false) := by
  constructor
  · cases c with
    | mk v d => cases d <;> simp [ready, try_with]
  · intro h
    simp [ready, try_with, h]

/-- C6 witness: a disposed cell holding `5` reads as not ready, and a live
cell holding `0` reads as ready. -/
theorem ready_iff_zero_witness :
    ready ⟨5, true⟩ = false ∧ ready ⟨0, false⟩ = true :=
  ⟨(ready_iff_zero ⟨5, true⟩).2 rfl,
   (ready_iff_zero ⟨0, false⟩).1.mpr ⟨rfl, rfl⟩⟩

/-- C7: trackers compare equal — and feed identical data to the hasher —
exactly when they wrap the same underlying count cell (same `SignalId`,
independent of any cell values); a tracker is always equal to itself (and
mutations act on the scope's stores, never on the handle, so this survives
arbitrary mutations); two trackers constructed from scopes with distinct
fresh-id counters (in particular, two successive constructions) are never
equal. -/
theorem identity_eq_hash (cx cx' : Scope) (h : cx.nextSignal ≠ cx'.nextSignal) :
    (∀ a b : SuspenseContext,
        (ctxEq a b = true ↔ a.pending_resources.id = b.pending_resources.id) ∧
        (ctxHashInput a = ctxHashInput b ↔
          a.pending_resources.id = b.pending_resources.id)) ∧
    (∀ a : SuspenseContext, ctxEq a a = true) ∧
    ctxEq (SuspenseContext.new cx).1 (SuspenseContext.new cx').1 = false := by
  refine ⟨fun a b => ⟨?_, Iff.rfl⟩, fun a => ?_, ?_⟩
  · simp [ctxEq]
  · simp [ctxEq]
  · simpa [ctxEq, SuspenseContext.new, create_signal_count,
      create_signal_ids] using h

/-- C7 witness: trackers built from scopes with fresh-id counters `0` and
`2` are unequal. -/
theorem identity_eq_hash_witness :
    ctxEq (SuspenseContext.new ⟨[], [], 0⟩).1
      (SuspenseContext.new ⟨[], [], 2⟩).1 = false :=
  (identity_eq_hash ⟨[], [], 0⟩ ⟨[], [], 2⟩ (by decide)).2.2

/-- C8: on a well-formed scope, `new` yields a tracker through whose
handles the count cell reads `0` and the id-set cell reads the empty set;
its only side effects are appending exactly those two cells to the
scope's stores and advancing the fresh-id counter by two; the returned
handle's read and write sides agree. -/
theorem new_initial_state (cx : Scope) (h : Scope.WF cx) :
    readCount (SuspenseContext.new cx).2 (SuspenseContext.new cx).1 = some 0 ∧
    readIds (SuspenseContext.new cx).2 (SuspenseContext.new cx).1 = some ∅ ∧
    (SuspenseContext.new cx).2.countCells =
      cx.countCells ++ [(cx.nextSignal, 0)] ∧
    (SuspenseContext.new cx).2.idsCells =
      cx.idsCells ++ [(cx.nextSignal + 1, ∅)] ∧
    (SuspenseContext.new cx).2.nextSignal = cx.nextSignal + 2 ∧
    SuspenseContext.WF (SuspenseContext.new cx).1 := by
  refine ⟨?_, ?_, rfl, rfl, rfl, rfl, rfl⟩
  · show lookupCell (cx.countCells ++ [(cx.nextSignal, 0)]) cx.nextSignal =
      some 0
    exact lookupCell_append_fresh _ _ _ (fun p hp => Nat.ne_of_lt (h.1 p hp))
  · show lookupCell (cx.idsCells ++ [(cx.nextSignal + 1, ∅)])
      (cx.nextSignal + 1) = some ∅
    refine lookupCell_append_fresh _ _ _ (fun p hp => Nat.ne_of_lt ?_)
    exact Nat.lt_succ_of_lt (h.2 p hp)

/-- C8 witness: constructing from the empty scope gives a tracker reading
count `0` and id set `∅`. -/
theorem new_initial_state_witness :
    readCount (SuspenseContext.new ⟨[], [], 0⟩).2
      (SuspenseContext.new ⟨[], [], 0⟩).1 = some 0 ∧
    readIds (SuspenseContext.new ⟨[], [], 0⟩).2
      (SuspenseContext.new ⟨[], [], 0⟩).1 = some ∅ :=
  ⟨(new_initial_state ⟨[], [], 0⟩ ⟨by simp, by simp⟩).1,
   (new_initial_state ⟨[], [], 0⟩ ⟨by simp, by simp⟩).2.1⟩

/-- C10: a copy of a tracker (an identical quadruple of handles, as `Copy`
derives) compares equal to and hashes identically with the original, and
an increment or decrement applied through the copy is — once its closure
has run — visible through the original's count and id-set readers,
because both handles address the same cells in the scope's stores. -/
theorem copy_shares_cells (t tc : SuspenseContext) (hcopy : tc = t)
    (hwf : SuspenseContext.WF t) (cx : Scope) (id : ResourceId) :
    ctxEq t tc = true ∧ ctxHashInput t = ctxHashInput tc ∧
    readCount (incrementApplied cx tc id) t =
      (readCount cx t).map (fun n => n + 1) ∧
    readIds (incrementApplied cx tc id) t =
      (readIds cx t).map (fun ids => insert id ids) ∧
    readCount (decrementApplied cx tc id) t =
      (readCount cx t).map (fun n => if n > 0 then n - 1 else n) ∧
    readIds (decrementApplied cx tc id) t =
      (readIds cx t).map (fun ids => ids.erase id) := by
  subst hcopy
  obtain ⟨hcnt, hids⟩ := hwf
  refine ⟨by simp [ctxEq], rfl, ?_, ?_, ?_, ?_⟩
  · simp only [readCount, incrementApplied, hcnt]
    exact lookupCell_updateCell_self _ _ _
  · simp only [readIds, incrementApplied, hids]
    exact lookupCell_updateCell_self _ _ _
  · simp only [readCount, decrementApplied, hcnt]
    exact lookupCell_updateCell_self _ _ _
  · simp only [readIds, decrementApplied, hids]
    exact lookupCell_updateCell_self _ _ _

/-- C10 witness: on the freshly constructed tracker and its scope, an
increment of id `7` through a copy raises the original's count reader
from `0` to `1`. -/
theorem copy_shares_cells_witness :
    readCount (incrementApplied (SuspenseContext.new ⟨[], [], 0⟩).2
        (SuspenseContext.new ⟨[], [], 0⟩).1 7)
      (SuspenseContext.new ⟨[], [], 0⟩).1 = some 1 :=
  ((copy_shares_cells (SuspenseContext.new ⟨[], [], 0⟩).1
      (SuspenseContext.new ⟨[], [], 0⟩).1 rfl ⟨rfl, rfl⟩
      (SuspenseContext.new ⟨[], [], 0⟩).2 7).2.2.1).trans rfl

end Leptos
